import Mathlib

/-!
Verification of the Porter MCP gateway core (Rust sources under `src/`).

Each Rust construct the claims touch is shallowly embedded:

* strings are Lean `String`s; Rust `str::starts_with` / `contains` are
  modelled at the character-list level (`strIsPrefixOf`, `strContains`) so
  that everything evaluates by `decide`/`rfl`;
* `HashMap`s are association lists (`List (String × _)`); the code only
  iterates them or probes membership, so acceptance behaviour does not
  depend on iteration order;
* fallible Rust functions returning `Result` become `Except`.

The sources embedded here: `src/cli/access_guard.rs`, `src/server/health.rs`,
`src/config.rs`, `src/cli/harness.rs`, `src/cli/profiles/*.rs`,
`src/namespace.rs`, `src/registry.rs`.
-/

/-- Character-list model of Rust `str::starts_with`: `strIsPrefixOf p s` is
true iff `p` is a prefix of `s`. -/
def strIsPrefixOf (p s : String) : Bool :=
  p.toList.isPrefixOf s.toList

/-- Contiguous-occurrence test on character lists: `needle` occurs inside the
haystack iff it is a prefix there or occurs in the tail. -/
def listIsInfixOf (needle : List Char) : List Char → Bool
  | [] => needle.isEmpty
  | c :: rest => needle.isPrefixOf (c :: rest) || listIsInfixOf needle rest

/-- Character-list model of Rust `str::contains`: `strContains s t` is true
iff `t` occurs contiguously inside `s`. -/
def strContains (s t : String) : Bool :=
  listIsInfixOf t.toList s.toList

/-- Model of Rust `str::starts_with` used for description-prefix checks. -/
def strStartsWith (s p : String) : Bool :=
  p.toList.isPrefixOf s.toList

/-- A list is a Boolean prefix of itself followed by anything. -/
theorem isPrefixOf_append_self (p r : List Char) :
    p.isPrefixOf (p ++ r) = true := by
  induction p with
  | nil => simp [List.isPrefixOf]
  | cons a as ih => simp [List.isPrefixOf, ih]

/-- A leading copy of the needle makes the infix test succeed. -/
theorem listIsInfixOf_append_left (t b : List Char) :
    listIsInfixOf t (t ++ b) = true := by
  cases h : t ++ b with
  | nil =>
    have : t = [] := by
      cases t with
      | nil => rfl
      | cons x xs => simp at h
    simp [listIsInfixOf, this]
  | cons c rest =>
    have := isPrefixOf_append_self t b
    simp [listIsInfixOf, ← h, this]

/-- The infix test is stable under prepending to the haystack. -/
theorem listIsInfixOf_append_of (a t rest : List Char)
    (h : listIsInfixOf t rest = true) :
    listIsInfixOf t (a ++ rest) = true := by
  induction a with
  | nil => simpa using h
  | cons x xs ih => simp [listIsInfixOf, ih]

/-- The middle component of a three-part concatenation is contained. -/
theorem strContains_middle (a b c : String) :
    strContains (a ++ b ++ c) b = true := by
  have : (a ++ b ++ c).toList = a.toList ++ (b.toList ++ c.toList) := by
    simp [String.toList, String.data_append]
  rw [strContains, this]
  exact listIsInfixOf_append_of _ _ _ (listIsInfixOf_append_left _ _)

/- ===================== src/cli/access_guard.rs ===================== -/

/-- Access control decision error for a CLI invocation
(`AccessDenied` in `src/cli/access_guard.rs`). -/
inductive AccessDenied
  /-- Subcommand matched an explicit deny prefix entry. -/
  | explicitDeny (subcommand : String)
  /-- Subcommand is a write operation not opted-in via write_access. -/
  | writeBlocked (subcommand : String) (hint : String)
  /-- Allow list is non-empty and subcommand matches no entry. -/
  | notInAllowList (subcommand : String)
  deriving DecidableEq

/-- Access guard state (`AccessGuard` in `src/cli/access_guard.rs`).
The Rust `HashMap<String, bool>` for write opt-ins becomes an association
list; the read-only checker is an optional Lean function. -/
structure AccessGuard where
  allow : List String
  deny : List String
  writeAccess : List (String × Bool)
  isReadOnlyFn : Option (List String → Bool)

/-- The `WriteBlocked` hint built by `AccessGuard::check`
(`format!("Command blocked: {} {} is a write operation. ...")`, braces being
the Rust format placeholders for `command` and `subcommand_path`). -/
def writeHint (command subcommandPath : String) : String :=
  "Command blocked: " ++ command ++ " " ++ subcommandPath ++
    " is a write operation. Enable write_access in config to allow."

/-- `AccessGuard::check` (access_guard.rs lines 96-145).  Steps, in strict
priority order exactly as the Rust early-returns:
1. any deny prefix of the space-joined path blocks with `ExplicitDeny`;
2. with an attached read-only checker returning false, a missing
   `(prefix, true)` write opt-in blocks with `WriteBlocked`;
3. a non-empty allow list with no matching prefix blocks with
   `NotInAllowList`;
4. otherwise ok. -/
def AccessGuard.check (g : AccessGuard) (command : String) (args : List String) :
    Except AccessDenied Unit :=
  let subcommandPath := String.intercalate " " args
  if g.deny.any (fun denyPfx => strIsPrefixOf denyPfx subcommandPath) then
    .error (.explicitDeny subcommandPath)
  else if (match g.isReadOnlyFn with
           | some isReadOnly =>
             !isReadOnly args &&
               !(g.writeAccess.any fun pb => pb.2 && strIsPrefixOf pb.1 subcommandPath)
           | none => false) then
    .error (.writeBlocked subcommandPath (writeHint command subcommandPath))
  else if !g.allow.isEmpty &&
      !(g.allow.any fun allowPfx => strIsPrefixOf allowPfx subcommandPath) then
    .error (.notInAllowList subcommandPath)
  else
    .ok ()

/-- C1: for every access-guard configuration and argument list, if any
deny-prefix is a prefix of the space-joined argument path then
`check(command, args)` returns `ExplicitDeny`, regardless of the allow
list, the write-opt-in map, or the read-only oracle. -/
theorem check_deny_dominates (g : AccessGuard) (command : String) (args : List String)
    (h : g.deny.any (fun denyPfx => strIsPrefixOf denyPfx (String.intercalate " " args)) = true) :
    g.check command args = .error (.explicitDeny (String.intercalate " " args)) := by
  simp only [AccessGuard.check, h, if_true]

/-- Witness for `check_deny_dominates`: the guard of the repository's own
`test_deny_overrides_allow` (allow `s3`, deny `s3 delete`, an always-write
oracle) still answers `ExplicitDeny` on `aws s3 delete`. -/
theorem check_deny_dominates_witness :
    ({ allow := ["s3"], deny := ["s3 delete"],
       writeAccess := [("s3 delete", true)],
       isReadOnlyFn := some fun _ => false } : AccessGuard).check "aws" ["s3", "delete"]
      = .error (.explicitDeny "s3 delete") :=
  check_deny_dominates _ "aws" ["s3", "delete"] (by decide)

/- ===================== src/server/health.rs ===================== -/

/-- Four-state health model (`HealthState` in `src/server/health.rs`). -/
inductive HealthState
  | starting
  | healthy
  | degraded
  | unhealthy
  deriving DecidableEq

/-- `ErrorRateTracker::health_state` (health.rs lines 52-70), as a function of
the window's `was_error` flags (the timestamps only drive pruning, not the
classification).  The Rust code compares `errors as f64 / total as f64`
against the literals `0.05` and `0.50`; for window sizes below `2^53` those
f64 comparisons coincide with the exact comparisons `20 * errors < total`
and `2 * errors ≤ total` used here (both `1/20` and `1/2` round to the same
side as the exact rational value for every representable count). -/
def health_state (window : List Bool) : HealthState :=
  let total := window.length
  if total < 5 then .starting
  else
    let errors := (window.filter fun e => e).length
    if 20 * errors < total then .healthy
    else if 2 * errors ≤ total then .degraded
    else .unhealthy

/-- Errors in the window never exceed the window length. -/
theorem errors_le_total (window : List Bool) :
    (window.filter fun e => e).length ≤ window.length :=
  List.length_filter_le _ _

/-- C2: with `n` samples and `k` errors in the window, `state()` is
`Starting` for `n < 5`; otherwise `Healthy` iff `k/n < 0.05`, `Degraded`
iff `0.05 ≤ k/n ≤ 0.50`, and `Unhealthy` iff `k/n > 0.50` (fractions taken
exactly, in `ℚ`). -/
theorem health_state_classification (window : List Bool) :
    (window.length < 5 → health_state window = .starting) ∧
    (5 ≤ window.length →
      ((((window.filter fun e => e).length : ℚ) / (window.length : ℚ) < 5 / 100 →
          health_state window = .healthy) ∧
        ((5 / 100 ≤ (((window.filter fun e => e).length : ℚ) / (window.length : ℚ)) ∧
            (((window.filter fun e => e).length : ℚ) / (window.length : ℚ)) ≤ 50 / 100) →
          health_state window = .degraded) ∧
        (50 / 100 < (((window.filter fun e => e).length : ℚ) / (window.length : ℚ)) →
          health_state window = .unhealthy))) := by
  set n := window.length with hn
  set k := (window.filter fun e => e).length with hk
  constructor
  · intro hlt
    simp [health_state, ← hn, hlt]
  · intro hge
    have hn0 : (0 : ℚ) < (n : ℚ) := by
      have : 0 < n := lt_of_lt_of_le (by norm_num) hge
      exact_mod_cast this
    have hnlt : ¬ n < 5 := not_lt.mpr hge
    have hhealthy : ((k : ℚ) / (n : ℚ) < 5 / 100) ↔ 20 * k < n := by
      rw [div_lt_iff₀ hn0]
      constructor
      · intro h
        have : (20 * k : ℚ) < (n : ℚ) := by linarith
        exact_mod_cast this
      · intro h
        have : (20 * k : ℚ) < (n : ℚ) := by exact_mod_cast h
        linarith
    have hdeg : ((k : ℚ) / (n : ℚ) ≤ 50 / 100) ↔ 2 * k ≤ n := by
      rw [div_le_iff₀ hn0]
      constructor
      · intro h
        have : (2 * k : ℚ) ≤ (n : ℚ) := by linarith
        exact_mod_cast this
      · intro h
        have : (2 * k : ℚ) ≤ (n : ℚ) := by exact_mod_cast h
        linarith
    refine ⟨?_, ?_, ?_⟩
    · intro h
      have h20 : 20 * k < n := hhealthy.mp h
      simp [health_state, ← hn, ← hk, hnlt, h20]
    · rintro ⟨hlo, hhi⟩
      have h20 : ¬ 20 * k < n := by
        intro hcon
        exact absurd (hhealthy.mpr hcon) (not_lt.mpr hlo)
      have h2 : 2 * k ≤ n := hdeg.mp hhi
      simp [health_state, ← hn, ← hk, hnlt, h20, h2]
    · intro h
      have h2 : ¬ 2 * k ≤ n := by
        intro hcon
        exact absurd (hdeg.mpr hcon) (not_le.mpr h)
      have h20 : ¬ 20 * k < n := by
        intro hcon
        have : 2 * k ≤ n := by omega
        exact h2 this
      simp [health_state, ← hn, ← hk, hnlt, h20, h2]

/-- Witness for `health_state_classification`: ten samples with one error
(the repository's `test_health_degraded` scenario) classify as Degraded. -/
theorem health_state_classification_witness :
    health_state [true, false, false, false, false, false, false, false, false, false]
      = .degraded := by
  have h := (health_state_classification
    [true, false, false, false, false, false, false, false, false, false]).2
    (by decide)
  exact h.2.1 (by norm_num)

/- ===================== src/config.rs ===================== -/

/-- The error variants of `PorterError` (`src/error.rs`) that the embedded
code paths can produce. -/
inductive PorterError
  | duplicateSlug (slug : String)
  | invalidConfig (slug msg : String)
  | serverUnhealthy (slug msg : String)
  | protocol (slug msg : String)
  deriving DecidableEq

/-- Supported transports (`TransportKind` in `src/config.rs`). -/
inductive TransportKind
  | stdio
  | http
  | cli
  deriving DecidableEq

/-- The literal characters `{` and `}`. -/
def lbrace : Char := Char.ofNat 123

/-- See `lbrace`. -/
def rbrace : Char := Char.ofNat 125

/-- `parse_env_ref` (config.rs lines 12-14): strip a leading `"${"` and a
trailing brace, accepting only full env-var references. -/
def parse_env_ref (value : String) : Option String :=
  match value.toList with
  | '$' :: c :: rest =>
    if c = lbrace then
      match rest.getLast? with
      | some d => if d = rbrace then some (String.mk rest.dropLast) else none
      | none => none
    else none
  | _ => none

/-- `ServerConfig` (config.rs lines 42-60); `cwd` is kept as an opaque
string, durations as naturals. -/
structure ServerConfig where
  slug : String
  enabled : Bool
  transport : TransportKind
  command : Option String
  args : List String
  env : List (String × String)
  cwd : Option String
  url : Option String
  handshakeTimeoutSecs : Nat

/-- Minimal JSON value model for `serde_json::Value` fields the claims
touch (`schema_override` contents and CLI call arguments).  Numbers are
modelled as integers; the float and object-ordering subtleties of serde do
not reach any claim. -/
inductive JsonVal
  | null
  | bool (b : Bool)
  | num (n : Int)
  | str (s : String)
  | arr (xs : List JsonVal)
  | obj (fields : List (String × JsonVal))

/-- `CliServerConfig` (config.rs lines 92-134). -/
structure CliServerConfig where
  slug : String
  enabled : Bool
  transport : TransportKind
  command : String
  profile : Option String
  args : List String
  env : List (String × String)
  allow : List String
  deny : List String
  writeAccess : List (String × Bool)
  timeoutSecs : Nat
  injectFlags : List String
  expandSubcommands : Option Bool
  schemaOverride : Option JsonVal
  helpDepth : Option Nat
  discoveryBudgetSecs : Nat

/-- The slug-format predicate of `PorterConfig::validate` step 3
(config.rs lines 156-158): invalid iff empty, containing `"__"`, or holding
a character that is neither alphanumeric nor a hyphen.  Rust
`char::is_alphanumeric` is Unicode-aware; `Char.isAlphanum` restricts to
ASCII, on which the two agree (every slug in the repository is ASCII). -/
def slugFormatInvalid (slug : String) : Bool :=
  slug.toList.isEmpty || strContains slug "__" ||
    !(slug.toList.all fun c => c.isAlphanum || c = '-')

/-- First env entry whose value is not a `${VAR}` reference (the Rust
validation loops report the first offender they iterate over). -/
def firstBadEnv (env : List (String × String)) : Option (String × String) :=
  env.find? fun kv => (parse_env_ref kv.2).isNone

/-- Step 1 of `PorterConfig::validate` (config.rs lines 139-145): walk the
server entries recording slugs, failing on the first duplicate. -/
def checkServerDuplicates : List String → List ServerConfig → Except PorterError (List String)
  | seen, [] => .ok seen
  | seen, c :: rest =>
    if seen.contains c.slug then .error (.duplicateSlug c.slug)
    else checkServerDuplicates (c.slug :: seen) rest

/-- Steps 2-5 of `PorterConfig::validate` for one server entry
(config.rs lines 148-218): disabled entries are skipped; otherwise the slug
format, the transport-specific fields, and the env references are checked
in order. -/
def validateServerEntry (config : ServerConfig) : Except PorterError Unit :=
  if !config.enabled then .ok ()
  else if slugFormatInvalid config.slug then
    .error (.invalidConfig config.slug
      "slug must be non-empty alphanumeric with hyphens, no double underscores")
  else
    let transportCheck : Except PorterError Unit :=
      match config.transport with
      | .stdio =>
        if config.command.isNone then
          .error (.invalidConfig config.slug "STDIO transport requires 'command' field")
        else if config.url.isSome then
          .error (.invalidConfig config.slug "STDIO transport should not have 'url' field")
        else .ok ()
      | .http =>
        if config.url.isNone then
          .error (.invalidConfig config.slug "HTTP transport requires 'url' field")
        else if config.command.isSome then
          .error (.invalidConfig config.slug "HTTP transport should not have 'command' field")
        else .ok ()
      | .cli =>
        .error (.invalidConfig config.slug
          "CLI transport must be configured under [cli.*], not [servers.*]")
    match transportCheck with
    | .error e => .error e
    | .ok () =>
      match firstBadEnv config.env with
      | some kv =>
        .error (.invalidConfig config.slug
          ("env value for key '" ++ kv.1 ++ "' must be a $\x7bVAR\x7d reference, got '"
            ++ kv.2 ++ "'"))
      | none => .ok ()

/-- Fold `validateServerEntry` over the servers table, stopping at the
first error. -/
def validateServerEntries : List ServerConfig → Except PorterError Unit
  | [] => .ok ()
  | c :: rest =>
    match validateServerEntry c with
    | .error e => .error e
    | .ok () => validateServerEntries rest

/-- The per-entry checks of step 6 of `PorterConfig::validate`
(config.rs lines 230-277), applied only to enabled CLI entries: non-empty
command, `cli` transport, env references, and the `help_depth` bounds.
Note the absence of any slug-format check. -/
def validateCliEntry (config : CliServerConfig) : Except PorterError Unit :=
  if config.command = "" then
    .error (.invalidConfig config.slug "CLI transport requires non-empty 'command' field")
  else if config.transport ≠ .cli then
    .error (.invalidConfig config.slug "CLI tool must have transport = \"cli\"")
  else
    match firstBadEnv config.env with
    | some kv =>
      .error (.invalidConfig config.slug
        ("env value for key '" ++ kv.1 ++ "' must be a $\x7bVAR\x7d reference, got '"
          ++ kv.2 ++ "'"))
    | none =>
      match config.helpDepth with
      | some depth =>
        if depth > 5 then
          .error (.invalidConfig config.slug
            ("help_depth " ++ toString depth ++ " exceeds maximum of 5"))
        else if depth > 0 && config.discoveryBudgetSecs = 0 then
          .error (.invalidConfig config.slug
            "discovery_budget_secs must be > 0 when help_depth > 0")
        else .ok ()
      | none => .ok ()

/-- Step 6 of `PorterConfig::validate` (config.rs lines 222-278): every CLI
slug is checked against the seen set (even for disabled entries, whose
remaining checks are skipped), then the per-entry checks run. -/
def validateCliEntries : List String → List CliServerConfig → Except PorterError Unit
  | _, [] => .ok ()
  | seen, c :: rest =>
    if seen.contains c.slug then .error (.duplicateSlug c.slug)
    else if !c.enabled then validateCliEntries (c.slug :: seen) rest
    else
      match validateCliEntry c with
      | .error e => .error e
      | .ok () => validateCliEntries (c.slug :: seen) rest

/-- Top-level Porter configuration (`PorterConfig` in config.rs); the two
`HashMap`s become lists of their values. -/
structure PorterConfig where
  servers : List ServerConfig
  cli : List CliServerConfig

/-- `PorterConfig::validate` (config.rs lines 138-281). -/
def PorterConfig.validate (c : PorterConfig) : Except PorterError Unit :=
  match checkServerDuplicates [] c.servers with
  | .error e => .error e
  | .ok seen =>
    match validateServerEntries c.servers with
    | .error e => .error e
    | .ok () => validateCliEntries seen c.cli

/-- An accepted enabled server entry passed the slug-format check. -/
theorem validateServerEntry_slug_ok (c : ServerConfig)
    (h : validateServerEntry c = .ok ()) (hen : c.enabled = true) :
    slugFormatInvalid c.slug = false := by
  by_contra hbad
  have hbad' : slugFormatInvalid c.slug = true := by
    cases hv : slugFormatInvalid c.slug
    · exact absurd hv hbad
    · rfl
  simp only [validateServerEntry, hen, hbad'] at h
  simp at h

/-- A successful `validateServerEntries` run implies every enabled entry
passed the slug-format check. -/
theorem validateServerEntries_slug_ok (l : List ServerConfig)
    (h : validateServerEntries l = .ok ()) :
    ∀ s ∈ l, s.enabled = true → slugFormatInvalid s.slug = false := by
  induction l with
  | nil => intro s hs; simp at hs
  | cons c rest ih =>
    intro s hs hen
    rw [validateServerEntries] at h
    cases hcase : validateServerEntry c with
    | error e => rw [hcase] at h; simp at h
    | ok u =>
      cases u
      rw [hcase] at h
      rcases List.mem_cons.mp hs with hs' | hs'
      · subst hs'
        exact validateServerEntry_slug_ok s hcase hen
      · exact ih h s hs' hen

/-- C4 (corrected): if `validate` accepts a configuration, every **enabled
entry of the protocol-servers table** has a slug passing the format check
(non-empty, alphanumeric-plus-hyphen, no `"__"`).  The CLI table receives
no such check (see `cli_slug_format_not_validated`). -/
theorem validate_ok_server_slugs_wellformed (c : PorterConfig)
    (h : c.validate = .ok ()) :
    ∀ s ∈ c.servers, s.enabled = true → slugFormatInvalid s.slug = false := by
  have hse : validateServerEntries c.servers = .ok () := by
    rw [PorterConfig.validate] at h
    cases hdup : checkServerDuplicates [] c.servers with
    | error e => rw [hdup] at h; simp at h
    | ok seen =>
      rw [hdup] at h
      cases hval : validateServerEntries c.servers with
      | error e => rw [hval] at h; simp at h
      | ok u => cases u; rfl
  exact validateServerEntries_slug_ok c.servers hse

/-- An enabled CLI entry whose slug contains a double underscore. -/
def badCliConfig : CliServerConfig :=
  { slug := "bad__slug", enabled := true, transport := .cli, command := "somecmd",
    profile := none, args := [], env := [], allow := [], deny := [], writeAccess := [],
    timeoutSecs := 30, injectFlags := [], expandSubcommands := none,
    schemaOverride := none, helpDepth := none, discoveryBudgetSecs := 60 }

/-- C4 counterexample: `validate` accepts a config whose only (enabled) CLI
entry carries the malformed slug `"bad__slug"` — the slug-format rule is
never applied to the CLI table, contradicting the claim that both tables
are checked alike. -/
theorem cli_slug_format_not_validated :
    PorterConfig.validate { servers := [], cli := [badCliConfig] } = .ok () ∧
    slugFormatInvalid "bad__slug" = true := by
  constructor
  · rfl
  · decide

/-- A well-formed single-server stdio configuration (the repository's
`test_valid_stdio_config` scenario). -/
def ghServerConfig : ServerConfig :=
  { slug := "gh", enabled := true, transport := .stdio, command := some "gh-mcp",
    args := [], env := [], cwd := none, url := none, handshakeTimeoutSecs := 30 }

/-- Witness for `validate_ok_server_slugs_wellformed`: a valid one-server
stdio config is accepted, and the theorem yields its slug's wellformedness. -/
theorem validate_ok_server_slugs_wellformed_witness :
    slugFormatInvalid "gh" = false := by
  have h := validate_ok_server_slugs_wellformed
    { servers := [ghServerConfig], cli := [] } (by rfl)
  exact h ghServerConfig (by simp) rfl

/- ============ access-guard construction (harness.rs, profiles) ============ -/

/-- `AccessGuard::new` (access_guard.rs lines 67-74): copy the three config
lists, no read-only checker. -/
def AccessGuard.new (config : CliServerConfig) : AccessGuard :=
  { allow := config.allow, deny := config.deny, writeAccess := config.writeAccess,
    isReadOnlyFn := none }

/-- `AccessGuard::with_read_only_checker` (access_guard.rs lines 80-86). -/
def AccessGuard.withReadOnlyChecker (g : AccessGuard) (f : List String → Bool) : AccessGuard :=
  { g with isReadOnlyFn := some f }

/-- The slice of the `BuiltinProfile` trait (`src/cli/profiles/mod.rs`)
that guard construction and expansion-mode selection consume. -/
structure BuiltinProfile where
  name : String
  defaultInjectFlags : List String
  isReadOnly : List String → Bool
  readOnlySubcommands : List (List String)
  expandByDefault : Bool

/-- `RgProfile` (`src/cli/profiles/rg.rs`): always read-only, empty
subcommand list, `expand_by_default` overridden to `false`. -/
def rgProfile : BuiltinProfile :=
  { name := "rg", defaultInjectFlags := ["--json"], isReadOnly := fun _ => true,
    readOnlySubcommands := [], expandByDefault := false }

/-- `DoggoProfile` (`src/cli/profiles/doggo.rs`): always read-only, empty
subcommand list, `expand_by_default` left at the trait default `true`. -/
def doggoProfile : BuiltinProfile :=
  { name := "doggo", defaultInjectFlags := ["--json"], isReadOnly := fun _ => true,
    readOnlySubcommands := [], expandByDefault := true }

/-- Guard wiring in `spawn_cli_server` (harness.rs lines 396-405): with a
profile the guard gets the profile's `is_read_only` as checker, without one
it is the bare `AccessGuard::new`. -/
def buildGuard (config : CliServerConfig) (profile : Option BuiltinProfile) : AccessGuard :=
  match profile with
  | some p => (AccessGuard.new config).withReadOnlyChecker p.isReadOnly
  | none => AccessGuard.new config

/-- C3: with a read-only oracle attached and no deny match, an operation the
oracle calls a write is blocked exactly when no `(prefix, true)` opt-in
covers the path: absent an opt-in the result is `WriteBlocked` whose hint
contains the command, the path, "is a write operation" and
"Enable write_access"; with an opt-in the result is never `WriteBlocked`. -/
theorem check_write_blocked_iff_no_opt_in (g : AccessGuard) (f : List String → Bool)
    (command : String) (args : List String)
    (hdeny : (g.deny.any fun p => strIsPrefixOf p (String.intercalate " " args)) = false)
    (hf : g.isReadOnlyFn = some f)
    (hwrite : f args = false) :
    ((g.writeAccess.any fun pb =>
        pb.2 && strIsPrefixOf pb.1 (String.intercalate " " args)) = false →
      g.check command args =
        .error (.writeBlocked (String.intercalate " " args)
          (writeHint command (String.intercalate " " args))) ∧
      strContains (writeHint command (String.intercalate " " args)) command = true ∧
      strContains (writeHint command (String.intercalate " " args))
        (String.intercalate " " args) = true ∧
      strContains (writeHint command (String.intercalate " " args))
        "is a write operation" = true ∧
      strContains (writeHint command (String.intercalate " " args))
        "Enable write_access" = true) ∧
    ((g.writeAccess.any fun pb =>
        pb.2 && strIsPrefixOf pb.1 (String.intercalate " " args)) = true →
      ∀ sub hint, g.check command args ≠ .error (.writeBlocked sub hint)) := by
  have hlist : ∀ path : String, (writeHint command path).toList =
      "Command blocked: ".toList ++ (command.toList ++ (" ".toList ++ (path.toList ++
        " is a write operation. Enable write_access in config to allow.".toList))) := by
    intro path
    simp [writeHint, String.toList, String.data_append]
  constructor
  · intro hopt
    refine ⟨?_, ?_, ?_, ?_, ?_⟩
    · simp only [AccessGuard.check, hdeny, hf, hwrite, hopt]
      simp
    · rw [strContains, hlist]
      exact listIsInfixOf_append_of _ _ _
        (listIsInfixOf_append_left _ _)
    · rw [strContains, hlist]
      refine listIsInfixOf_append_of _ _ _ (listIsInfixOf_append_of _ _ _
        (listIsInfixOf_append_of _ _ _ (listIsInfixOf_append_left _ _)))
    · rw [strContains, hlist]
      refine listIsInfixOf_append_of _ _ _ (listIsInfixOf_append_of _ _ _
        (listIsInfixOf_append_of _ _ _ (listIsInfixOf_append_of _ _ _ (by decide))))
    · rw [strContains, hlist]
      refine listIsInfixOf_append_of _ _ _ (listIsInfixOf_append_of _ _ _
        (listIsInfixOf_append_of _ _ _ (listIsInfixOf_append_of _ _ _ (by decide))))
  · intro hopt sub hint
    simp only [AccessGuard.check, hdeny, hf, hwrite, hopt]
    simp only [Bool.not_true, Bool.and_false, Bool.false_eq_true, if_false,
      Bool.not_false, if_true]
    split
    · simp
    · simp

/-- Witness for `check_write_blocked_iff_no_opt_in`: the repository's
`test_write_operation_blocked_by_default` guard (everything a write, no
opt-in) blocks `aws ec2 run-instances` with the full hint. -/
theorem check_write_blocked_iff_no_opt_in_witness :
    ({ allow := [], deny := [], writeAccess := [],
       isReadOnlyFn := some fun _ => false } : AccessGuard).check
        "aws" ["ec2", "run-instances"]
      = .error (.writeBlocked "ec2 run-instances"
          (writeHint "aws" "ec2 run-instances")) := by
  have h := (check_write_blocked_iff_no_opt_in
    { allow := [], deny := [], writeAccess := [],
      isReadOnlyFn := some fun _ => false } (fun _ => false)
    "aws" ["ec2", "run-instances"] (by decide) rfl rfl).1 (by decide)
  exact h.1

/-- C10: a CLI backend constructed without a built-in profile carries no
read-only oracle, so its guard can never answer `WriteBlocked`; every call
that passes the deny list and the allow list is permitted. -/
theorem no_profile_never_write_blocked (config : CliServerConfig) (command : String)
    (args : List String) :
    (∀ sub hint,
      (buildGuard config none).check command args ≠ .error (.writeBlocked sub hint)) ∧
    ((config.deny.any fun p => strIsPrefixOf p (String.intercalate " " args)) = false →
      (config.allow.isEmpty = true ∨
        (config.allow.any fun p => strIsPrefixOf p (String.intercalate " " args)) = true) →
      (buildGuard config none).check command args = .ok ()) := by
  constructor
  · intro sub hint
    simp only [buildGuard, AccessGuard.new, AccessGuard.check]
    split
    · simp
    · simp only [Bool.false_eq_true, if_false]
      split
      · simp
      · simp
  · intro hdeny hallow
    simp only [buildGuard, AccessGuard.new, AccessGuard.check, hdeny]
    rcases hallow with hallow | hallow
    · simp [hallow]
    · simp [hallow]

/-- Witness for `no_profile_never_write_blocked`: an unrestricted profile-less
guard lets the write operation `kubectl delete pod` straight through. -/
theorem no_profile_never_write_blocked_witness :
    (buildGuard badCliConfig none).check "kubectl" ["delete", "pod"] = .ok () := by
  have h := no_profile_never_write_blocked badCliConfig "kubectl" ["delete", "pod"]
  exact h.2 (by decide) (Or.inl (by decide))

/- ============ expansion-mode selection (harness.rs lines 270-330) ============ -/

/-- `ExpansionMode` (harness.rs lines 270-277). -/
inductive ExpansionMode
  | singleTool
  | staticProfile
  | discovery (depth : Nat)
  deriving DecidableEq

/-- `determine_expansion_mode` (harness.rs lines 288-330).  The evaluation
order of the Rust early-returns: `expand_subcommands = Some(false)` and
`help_depth = Some(0)` pick the single tool; any other `Some(depth)` picks
discovery at that depth (`depth ≠ 0` there, the zero case returned above);
with `help_depth` unset, a profile whose `expand_by_default()` holds picks
discovery at depth 3, then `expand_subcommands = Some(true)` picks static
expansion (requiring a profile), and otherwise the single tool remains. -/
def determine_expansion_mode (config : CliServerConfig) (profile : Option BuiltinProfile)
    (slug : String) : Except PorterError ExpansionMode :=
  if config.expandSubcommands = some false then .ok .singleTool
  else if config.helpDepth = some 0 then .ok .singleTool
  else
    match config.helpDepth with
    | some depth => .ok (.discovery depth)
    | none =>
      if (match profile with | some p => p.expandByDefault | none => false) then
        .ok (.discovery 3)
      else if config.expandSubcommands = some true then
        match profile with
        | none => .error (.invalidConfig slug
            "expand_subcommands = true requires a built-in profile")
        | some _ => .ok .staticProfile
      else .ok .singleTool

/-- The CLI config of a `[cli.rg]` entry with profile `rg` and everything
else left at its defaults (`expand_subcommands` and `help_depth` unset). -/
def rgConfig : CliServerConfig :=
  { slug := "rg", enabled := true, transport := .cli, command := "rg",
    profile := some "rg", args := [], env := [], allow := [], deny := [],
    writeAccess := [], timeoutSecs := 30, injectFlags := [], expandSubcommands := none,
    schemaOverride := none, helpDepth := none, discoveryBudgetSecs := 60 }

/-- C5 counterexample: with `expand` unset, `helpDepth` unset and the
built-in `rg` profile attached, construction selects the single-tool path,
not discovery with depth 3 — the claim's "for every such profile" fails on
the profiles whose `expand_by_default()` is false (rg, tldr, whois). -/
theorem expansion_mode_rg_counterexample :
    determine_expansion_mode rgConfig (some rgProfile) "rg" = .ok .singleTool ∧
    determine_expansion_mode rgConfig (some rgProfile) "rg" ≠ .ok (.discovery 3) := by
  constructor
  · rfl
  · intro hcon
    have hok : (Except.ok ExpansionMode.singleTool : Except PorterError ExpansionMode)
        = .ok (.discovery 3) := by
      rw [← hcon]
      rfl
    exact ExpansionMode.noConfusion (Except.ok.inj hok)

/-- C5 (corrected): with `expand` unset-or-true, `helpDepth` unset and a
built-in profile attached **whose `expand_by_default()` is true**,
construction selects discovery expansion with depth 3. -/
theorem expansion_mode_discovery_default (config : CliServerConfig)
    (p : BuiltinProfile) (slug : String)
    (hexp : config.expandSubcommands = none ∨ config.expandSubcommands = some true)
    (hd : config.helpDepth = none)
    (hdef : p.expandByDefault = true) :
    determine_expansion_mode config (some p) slug = .ok (.discovery 3) := by
  have hne : config.expandSubcommands ≠ some false := by
    rcases hexp with h | h <;> simp [h]
  simp [determine_expansion_mode, hne, hd, hdef]

/-- Witness for `expansion_mode_discovery_default`: a default `[cli.doggo]`
entry with the doggo profile lands in discovery at depth 3. -/
theorem expansion_mode_discovery_default_witness :
    determine_expansion_mode
      { rgConfig with slug := "doggo", command := "doggo", profile := some "doggo" }
      (some doggoProfile) "doggo" = .ok (.discovery 3) :=
  expansion_mode_discovery_default _ doggoProfile "doggo" (Or.inl rfl) rfl rfl

/- ============ CLI call argument extraction (harness.rs lines 223-264) ============ -/

mutual
/-- Simplified model of the `serde_json::Value` `Display` used by the
catch-all arm of `extract_args_from_params` (numbers, arrays and objects
are stringified; serde's string escaping is elided — no claim inspects
this text). -/
def JsonVal.render : JsonVal → String
  | .null => "null"
  | .bool true => "true"
  | .bool false => "false"
  | .num n => toString n
  | .str s => "\"" ++ s ++ "\""
  | .arr xs => "[" ++ String.intercalate "," (JsonVal.renderList xs) ++ "]"
  | .obj fs => "\x7b" ++ String.intercalate "," (JsonVal.renderFields fs) ++ "\x7d"

/-- Render each array element (see `JsonVal.render`). -/
def JsonVal.renderList : List JsonVal → List String
  | [] => []
  | x :: xs => x.render :: JsonVal.renderList xs

/-- Render each object field (see `JsonVal.render`). -/
def JsonVal.renderFields : List (String × JsonVal) → List String
  | [] => []
  | f :: fs => ("\"" ++ f.1 ++ "\":" ++ f.2.render) :: JsonVal.renderFields fs
end

/-- Rust `key.replace('_', "-")`. -/
def hyphenate (key : String) : String :=
  String.mk (key.toList.map fun c => if c = '_' then '-' else c)

/-- Rust `Value::as_str`: `Some` only for JSON strings. -/
def asStr : JsonVal → Option String
  | .str s => some s
  | _ => none

/-- The per-key flag emission of `extract_args_from_params`
(harness.rs lines 240-261): `true` booleans emit just the flag,
`false`/null nothing, strings the flag then the value, anything else the
flag then its rendering. -/
def emitFlagArgs (key : String) (value : JsonVal) : List String :=
  let flag := "--" ++ hyphenate key
  match value with
  | .bool true => [flag]
  | .bool false => []
  | .null => []
  | .str s => [flag, s]
  | other => [flag, other.render]

/-- `extract_args_from_params` (harness.rs lines 223-264): positional
strings from an `"args"` array first, then `--flag`/value pairs for every
other key.  The `serde_json::Map` becomes an association list; `get`
becomes `List.lookup`. -/
def extract_args_from_params (arguments : Option (List (String × JsonVal))) : List String :=
  match arguments with
  | none => []
  | some args =>
    let positional : List String :=
      match args.lookup "args" with
      | some (.arr xs) => xs.filterMap asStr
      | _ => []
    positional ++ args.flatMap fun kv => if kv.1 = "args" then [] else emitFlagArgs kv.1 kv.2

/-- The C8 claim's description of the extraction, written from the spec's
words: values under `"args"` first as positional strings in order; every
other key with a string value emits `--key` (underscores hyphenated)
followed by the value; boolean true just the flag; boolean false and null
nothing. -/
def extractArgsClaimed (args : List (String × JsonVal)) : List String :=
  (match args.lookup "args" with
   | some (.arr xs) => xs.filterMap asStr
   | _ => []) ++
  args.flatMap fun kv =>
    if kv.1 = "args" then []
    else
      match kv.2 with
      | .str s => ["--" ++ hyphenate kv.1, s]
      | .bool true => ["--" ++ hyphenate kv.1]
      | .bool false => []
      | .null => []
      | _ => []

/-- C8: on every parameter map whose non-`"args"` values are strings,
booleans or null (the cases the claim describes), the code's extraction
agrees with the claimed behaviour. -/
theorem extract_args_matches_claim (args : List (String × JsonVal))
    (h : ∀ kv ∈ args, kv.1 ≠ "args" →
      ((∃ s, kv.2 = .str s) ∨ kv.2 = .bool true ∨ kv.2 = .bool false ∨ kv.2 = .null)) :
    extract_args_from_params (some args) = extractArgsClaimed args := by
  rw [extract_args_from_params, extractArgsClaimed]
  congr 1
  apply List.flatMap_congr
  intro kv hkv
  by_cases hk : kv.1 = "args"
  · simp [hk]
  · rcases h kv hkv hk with ⟨s, hs⟩ | hs | hs | hs <;>
      simp [hk, hs, emitFlagArgs]

/-- The parameter map of the repository's extraction tests, combined:
positional `args`, a string flag, a true boolean, a false boolean and a
null. -/
def exampleParams : List (String × JsonVal) :=
  [("args", .arr [.str "hello", .str "world"]),
   ("region", .str "us-east-1"),
   ("verbose", .bool true),
   ("dry-run", .bool false),
   ("opt", .null)]

/-- Witness for `extract_args_matches_claim` at `exampleParams`. -/
theorem extract_args_matches_claim_witness :
    extract_args_from_params (some exampleParams) = extractArgsClaimed exampleParams :=
  extract_args_matches_claim exampleParams (by
    intro kv hkv hne
    simp only [exampleParams, List.mem_cons, List.not_mem_nil, or_false] at hkv
    rcases hkv with h | h | h | h | h <;> subst h <;> simp at hne ⊢)

/- ============ CLI call error flag (harness.rs lines 164-202) ============ -/

/-- The error-flag computation of `CliHandle::call_tool`: Rust takes
`exit_code = output.status.code().unwrap_or(-1)` (line 165) and
`is_error = exit_code != 0 && !stderr.is_empty()` (line 186). -/
def cliCallIsError (statusCode : Option Int) (stderr : String) : Bool :=
  let exitCode := statusCode.getD (-1)
  (exitCode != 0) && !(stderr == "")

/-- C9: for a CLI call that completes, `isError` is true exactly when the
exit code is non-zero **and** the captured stderr is non-empty; in every
other combination it is false. -/
theorem cli_is_error_iff (statusCode : Option Int) (stderr : String) :
    (cliCallIsError statusCode stderr = true ↔
      (statusCode.getD (-1) ≠ 0 ∧ stderr ≠ "")) ∧
    (statusCode.getD (-1) = 0 ∨ stderr = "" →
      cliCallIsError statusCode stderr = false) := by
  constructor
  · simp [cliCallIsError]
  · intro h
    rcases h with h | h <;> simp [cliCallIsError, h]

/-- Witness for `cli_is_error_iff`: exit code 1 with stderr text is an
error; exit 0 with the same stderr is not. -/
theorem cli_is_error_iff_witness :
    cliCallIsError (some 1) "boom" = true ∧ cliCallIsError (some 0) "boom" = false :=
  ⟨(cli_is_error_iff (some 1) "boom").1.mpr (by refine ⟨by decide, by decide⟩),
   (cli_is_error_iff (some 0) "boom").2 (Or.inl (by decide))⟩

/- ===================== src/namespace.rs ===================== -/

/-- The slice of `rmcp::model::Tool` the namespacing code reads and writes:
name and optional description. -/
structure Tool where
  name : String
  description : Option String
  deriving DecidableEq

/-- `namespace_tool` (namespace.rs lines 13-21): prefix the name with
`"{slug}__"`; prefix the description with `"[via {slug}] "` only when one
is present (the Rust `if let Some(desc)`). -/
def namespaceTool (slug : String) (tool : Tool) : Tool :=
  { name := slug ++ "__" ++ tool.name,
    description := tool.description.map fun desc => "[via " ++ slug ++ "] " ++ desc }

/-- Rust `str::split_once("__")` on the character list: split at the first
occurrence of a double underscore. -/
def splitOnceUU : List Char → Option (List Char × List Char)
  | [] => none
  | [_] => none
  | c1 :: c2 :: rest =>
    if c1 = '_' ∧ c2 = '_' then some ([], rest)
    else
      match splitOnceUU (c2 :: rest) with
      | some (pre, post) => some (c1 :: pre, post)
      | none => none

/-- `unnamespace_tool_name` (namespace.rs lines 25-27). -/
def unnamespace_tool_name (namespaced : String) : Option (String × String) :=
  match splitOnceUU namespaced.toList with
  | some (pre, post) => some (String.mk pre, String.mk post)
  | none => none

/-- Splitting on `"__"` after a block with no underscores finds exactly the
appended separator. -/
theorem splitOnceUU_append (pre rest : List Char) (h : ∀ c ∈ pre, c ≠ '_') :
    splitOnceUU (pre ++ '_' :: '_' :: rest) = some (pre, rest) := by
  induction pre with
  | nil => simp [splitOnceUU]
  | cons c pre' ih =>
    have hc : c ≠ '_' := h c (by simp)
    have h' : ∀ d ∈ pre', d ≠ '_' := fun d hd => h d (by simp [hd])
    cases pre' with
    | nil =>
      simp [splitOnceUU, hc]
    | cons d pre'' =>
      have hrec := ih h'
      simp only [List.cons_append] at hrec ⊢
      rw [splitOnceUU]
      simp [hc, hrec]

/-- A slug passing the config format check contains no underscore at all
(underscores are neither alphanumeric nor hyphens). -/
theorem slug_wellformed_no_underscore (slug : String)
    (h : slugFormatInvalid slug = false) :
    ∀ c ∈ slug.toList, c ≠ '_' := by
  intro c hc
  have hall : slug.toList.all (fun c => c.isAlphanum || c = '-') = true := by
    rcases hb : slug.toList.all fun c => c.isAlphanum || c = '-'
    · rw [slugFormatInvalid, hb] at h
      simp at h
    · rfl
  have := List.all_eq_true.mp hall c hc
  intro heq
  subst heq
  simp at this

/-- Decoding inverts encoding for any well-formed slug. -/
theorem unnamespace_namespace (slug nm : String)
    (h : slugFormatInvalid slug = false) :
    unnamespace_tool_name (slug ++ "__" ++ nm) = some (slug, nm) := by
  have hlist : (slug ++ "__" ++ nm).toList = slug.toList ++ '_' :: '_' :: nm.toList := by
    simp [String.toList, String.data_append]
  rw [unnamespace_tool_name, hlist,
    splitOnceUU_append slug.toList nm.toList (slug_wellformed_no_underscore slug h)]
  rfl

/-- In an association list with no duplicated keys, a key determines its
value. -/
theorem assoc_value_unique {β : Type} (l : List (String × β))
    (hnodup : (l.map Prod.fst).Nodup) (a : String) (b c : β)
    (hb : (a, b) ∈ l) (hc : (a, c) ∈ l) : b = c := by
  induction l with
  | nil => simp at hb
  | cons x rest ih =>
    have hmap : (x.1 :: rest.map Prod.fst).Nodup := by simpa using hnodup
    rcases List.nodup_cons.mp hmap with ⟨hx, hrest⟩
    rcases List.mem_cons.mp hb with hb' | hb' <;> rcases List.mem_cons.mp hc with hc' | hc'
    · have hbc : (a, b) = (a, c) := hb'.trans hc'.symm
      exact ((Prod.mk.injEq _ _ _ _).mp hbc).2
    · exfalso
      apply hx
      have hxa : x.1 = a := by rw [← hb']
      rw [hxa]
      exact List.mem_map_of_mem Prod.fst hc'
    · exfalso
      apply hx
      have hxa : x.1 = a := by rw [← hc']
      rw [hxa]
      exact List.mem_map_of_mem Prod.fst hb'
    · exact ih hrest hb' hc'

/-- The registry's aggregate of namespaced backend tool lists: every
supervisor publishes `discovered.map (namespace_tool slug)` into its handle
(stdio.rs lines 269-277) and `PorterRegistry::tools` concatenates the
handles' lists (registry.rs lines 106-117). -/
def aggregatedTools (backends : List (String × List Tool)) : List Tool :=
  backends.flatMap fun b => b.2.map (namespaceTool b.1)

/-- C7 (corrected): over backends with well-formed, pairwise-distinct slugs,
every aggregated tool's name decodes on the first `"__"` into the slug of
exactly one backend plus the original tool name; and **whenever the backend
tool carries a description**, the namespaced description is that
description prefixed with `"[via {slug}] "`.  (A backend tool without a
description stays description-free — see
`namespaced_description_counterexample`.) -/
theorem aggregated_tools_decode (backends : List (String × List Tool))
    (hvalid : ∀ b ∈ backends, slugFormatInvalid b.1 = false)
    (hnodup : (backends.map Prod.fst).Nodup) :
    ∀ t ∈ aggregatedTools backends,
      ∃ slug ts t0,
        (slug, ts) ∈ backends ∧ t0 ∈ ts ∧ t = namespaceTool slug t0 ∧
        unnamespace_tool_name t.name = some (slug, t0.name) ∧
        (∀ ts', (slug, ts') ∈ backends → ts' = ts) ∧
        (∀ d0, t0.description = some d0 →
          t.description = some ("[via " ++ slug ++ "] " ++ d0) ∧
          strStartsWith ("[via " ++ slug ++ "] " ++ d0) ("[via " ++ slug ++ "] ") = true) := by
  intro t ht
  rw [aggregatedTools] at ht
  rcases List.mem_flatMap.mp ht with ⟨b, hb, htb⟩
  rcases List.mem_map.mp htb with ⟨t0, ht0, heq⟩
  refine ⟨b.1, b.2, t0, hb, ht0, heq.symm, ?_, ?_, ?_⟩
  · rw [← heq]
    exact unnamespace_namespace b.1 t0.name (hvalid b hb)
  · intro ts' hts'
    exact assoc_value_unique backends hnodup b.1 ts' b.2 hts' hb
  · intro d0 hd0
    constructor
    · rw [← heq]
      simp [namespaceTool, hd0]
    · rw [strStartsWith]
      have : ("[via " ++ b.1 ++ "] " ++ d0).toList
          = ("[via " ++ b.1 ++ "] ").toList ++ d0.toList := by
        simp [String.toList, String.data_append]
      rw [this]
      exact isPrefixOf_append_self _ _

/-- The one-backend scenario of the repository's namespacing tests. -/
def ghTool : Tool := { name := "list_repos", description := some "List repositories" }

/-- See `ghTool`. -/
def ghBackends : List (String × List Tool) := [("gh", [ghTool])]

/-- Witness for `aggregated_tools_decode` on the `gh` backend's
`list_repos` tool. -/
theorem aggregated_tools_decode_witness :
    ∃ slug ts t0,
      (slug, ts) ∈ ghBackends ∧ t0 ∈ ts ∧
      namespaceTool "gh" ghTool = namespaceTool slug t0 ∧
      unnamespace_tool_name (namespaceTool "gh" ghTool).name = some (slug, t0.name) ∧
      (∀ ts', (slug, ts') ∈ ghBackends → ts' = ts) ∧
      (∀ d0, t0.description = some d0 →
        (namespaceTool "gh" ghTool).description = some ("[via " ++ slug ++ "] " ++ d0) ∧
        strStartsWith ("[via " ++ slug ++ "] " ++ d0) ("[via " ++ slug ++ "] ") = true) :=
  aggregated_tools_decode ghBackends
    (by intro b hb; simp [ghBackends] at hb; subst hb; decide)
    (by simp [ghBackends])
    (namespaceTool "gh" ghTool)
    (by simp [aggregatedTools, ghBackends])

/-- C7 counterexample: a backend tool published without a description is
exposed by the registry with `description = none`, so its description does
not start with `"[via gh] "` — the claim's unconditional description clause
fails on description-less tools. -/
theorem namespaced_description_counterexample :
    (namespaceTool "gh" { name := "list_repos", description := none }) ∈
      aggregatedTools [("gh", [{ name := "list_repos", description := none }])] ∧
    (namespaceTool "gh" { name := "list_repos", description := none }).description = none := by
  constructor
  · simp [aggregatedTools]
  · rfl

/- ===================== src/registry.rs ===================== -/

/-- Snapshot of `ServerHandle` (`src/server/mod.rs`): the slug, the health
currently readable from the watch channel, and the cached namespaced
tools.  The call channel is represented by the routing outcome below. -/
structure ServerHandle where
  slug : String
  health : HealthState
  tools : List Tool

/-- Snapshot of `CliHandle` (`src/cli/harness.rs`), restricted to the parts
the registry reads. -/
structure CliHandle where
  slug : String
  tools : List Tool

/-- `CliHandle::health` (harness.rs lines 212-214): CLI tools are always
Healthy. -/
def CliHandle.health (_ : CliHandle) : HealthState := .healthy

/-- `PorterRegistry` (registry.rs lines 27-34); the two `HashMap`s become
association lists keyed by slug. -/
structure PorterRegistry where
  servers : List (String × ServerHandle)
  cliHandles : List (String × CliHandle)

/-- `PorterRegistry::tools` (registry.rs lines 106-117): tools of every
server handle whose health is not `Unhealthy`, then the tools of every CLI
handle, unconditionally. -/
def PorterRegistry.toolsList (r : PorterRegistry) : List Tool :=
  (r.servers.flatMap fun p => if p.2.health ≠ .unhealthy then p.2.tools else []) ++
    r.cliHandles.flatMap fun p => p.2.tools

/-- Where `PorterRegistry::call_tool` hands the request on (the `await` on
the chosen backend). -/
inductive ForwardTarget
  | cli (slug originalName : String)
  | server (slug originalName : String)
  deriving DecidableEq

/-- The routing logic of `PorterRegistry::call_tool`
(registry.rs lines 125-171) up to the forwarding point: decode the
namespaced name, try CLI handles first, reject `Unhealthy` servers with
`ServerUnhealthy` before forwarding. -/
def PorterRegistry.callRoute (r : PorterRegistry) (namespacedName : String) :
    Except PorterError ForwardTarget :=
  match unnamespace_tool_name namespacedName with
  | none =>
    .error (.protocol "unknown"
      ("tool name '" ++ namespacedName ++ "' has no namespace prefix"))
  | some (slug, originalName) =>
    match r.cliHandles.lookup slug with
    | some _ => .ok (.cli slug originalName)
    | none =>
      match r.servers.lookup slug with
      | none => .error (.protocol slug ("no server with slug '" ++ slug ++ "'"))
      | some handle =>
        if handle.health = .unhealthy then
          .error (.serverUnhealthy slug "server is unhealthy")
        else .ok (.server slug originalName)

/-- C6: (a) a tool is listed by the registry iff it belongs to a protocol
backend whose current health is not `Unhealthy` or to a CLI handle (CLI
tools are always included, `Unhealthy` servers' tools are excluded while
Starting/Healthy/Degraded ones remain); and (b) a call routed by slug to an
`Unhealthy` protocol backend returns `ServerUnhealthy` instead of a
forwarding target. -/
theorem registry_excludes_unhealthy (r : PorterRegistry) :
    (∀ t, t ∈ r.toolsList ↔
      ((∃ p ∈ r.servers, p.2.health ≠ HealthState.unhealthy ∧ t ∈ p.2.tools) ∨
        ∃ p ∈ r.cliHandles, t ∈ p.2.tools)) ∧
    (∀ namespacedName slug originalName handle,
      unnamespace_tool_name namespacedName = some (slug, originalName) →
      r.cliHandles.lookup slug = none →
      r.servers.lookup slug = some handle →
      handle.health = HealthState.unhealthy →
      r.callRoute namespacedName = .error (.serverUnhealthy slug "server is unhealthy")) := by
  constructor
  · intro t
    rw [PorterRegistry.toolsList]
    simp only [List.mem_append, List.mem_flatMap]
    constructor
    · rintro (⟨p, hp, ht⟩ | ⟨p, hp, ht⟩)
      · left
        by_cases hh : p.2.health = HealthState.unhealthy
        · rw [if_neg (by simp [hh])] at ht
          exact absurd ht (by simp)
        · rw [if_pos hh] at ht
          exact ⟨p, hp, hh, ht⟩
      · right
        exact ⟨p, hp, ht⟩
    · rintro (⟨p, hp, hh, ht⟩ | ⟨p, hp, ht⟩)
      · left
        refine ⟨p, hp, ?_⟩
        rw [if_pos hh]
        exact ht
      · right
        exact ⟨p, hp, ht⟩
  · intro namespacedName slug originalName handle hdec hcli hsrv hhealth
    simp [PorterRegistry.callRoute, hdec, hcli, hsrv, hhealth]

/-- A registry holding one unhealthy protocol backend and nothing else. -/
def unhealthyRegistry : PorterRegistry :=
  { servers := [("gh",
      { slug := "gh", health := .unhealthy,
        tools := [{ name := "gh__list_repos", description := some "[via gh] List repositories" }] })],
    cliHandles := [] }

/-- Witness for `registry_excludes_unhealthy`: calling through the
unhealthy backend's slug is rejected with `ServerUnhealthy`. -/
theorem registry_excludes_unhealthy_witness :
    unhealthyRegistry.callRoute "gh__list_repos"
      = .error (.serverUnhealthy "gh" "server is unhealthy") :=
  (registry_excludes_unhealthy unhealthyRegistry).2 "gh__list_repos" "gh" "list_repos"
    { slug := "gh", health := .unhealthy,
      tools := [{ name := "gh__list_repos", description := some "[via gh] List repositories" }] }
    (by rfl) (by rfl) (by rfl) (by rfl)
